import Mathlib

/-!
Verification of the subscription core of `wealthsimple_v2.py`
(`WealthsimpleSubscriptions`): the transport connector (`connect`),
the inbound router (`_receiver`), the subscription registry
(`self._subscriptions`), the subscription facade (`_subscribe`), and
the outbound send path (`_send_message`, `ping`).

The embedding is shallow: the registry (a Python `dict` mapping a
subscription id string to an `asyncio.Queue`) becomes an association
list with unique keys; a queue becomes a FIFO list of `Option Frame`
(`none` is the completion sentinel that `_receiver` enqueues for a
`complete` frame, mirroring the Python `None`); the router's reaction
to one inbound websocket message becomes a total step function on the
client state; the `_subscribe` async generator becomes a function from
queue contents and a consumer budget to the yielded messages and the
registry after its `finally` cleanup.
-/

set_option autoImplicit false

/-- A parsed inbound or outbound protocol frame.  `type` models
`data.get("type")` (absent key gives `none`), `id` models
`data.get("id")`, and `payload` abstracts the rest of the JSON object,
so two frames with different payloads are distinguishable. -/
structure Frame where
  type : Option String
  id : Option String
  payload : String
deriving DecidableEq

/-- A raw websocket message as seen by `_receiver`: either text that
`json.loads` rejects (`JSONDecodeError`) or a parsed JSON object. -/
inductive RawFrame where
  | malformed (text : String)
  | parsed (data : Frame)
deriving DecidableEq

/-- A subscription's inbound queue: FIFO, `none` is the completion
sentinel. -/
abbrev Queue := List (Option Frame)

/-- The registry `self._subscriptions : Dict[str, asyncio.Queue]`,
modelled as an association list.  All operations below use
first-occurrence semantics; states reachable from the empty dict have
pairwise distinct keys (`keysNodup`). -/
abbrev Registry := List (String × Queue)

/-- Dict lookup: the queue registered for `tok`, if any. -/
def lookupQ : Registry → String → Option Queue
  | [], _ => none
  | (k, q) :: rest, tok => if k = tok then some q else lookupQ rest tok

/-- Python `tok in self._subscriptions`. -/
def hasToken (r : Registry) (tok : String) : Bool :=
  (lookupQ r tok).isSome

/-- The queue contents registered for `tok` (empty if unregistered);
a convenience projection for stating theorems. -/
def queueOf (r : Registry) (tok : String) : Queue :=
  (lookupQ r tok).getD []

/-- Dict assignment `self._subscriptions[tok] = q`: overwrite if the
key is present, append otherwise. -/
def setKey : Registry → String → Queue → Registry
  | [], tok, q => [(tok, q)]
  | (k, v) :: rest, tok, q =>
    if k = tok then (tok, q) :: rest else (k, v) :: setKey rest tok q

/-- Dict deletion `del self._subscriptions[tok]` (first occurrence;
callers guard with `hasToken`). -/
def eraseKey : Registry → String → Registry
  | [], _ => []
  | (k, v) :: rest, tok => if k = tok then rest else (k, v) :: eraseKey rest tok

/-- The facade's cleanup, `_subscribe` lines 2234-2237:
`if sub_id in self._subscriptions: del self._subscriptions[sub_id]`.
Idempotent: a no-op when the token is absent. -/
def unregisterTok (r : Registry) (tok : String) : Registry :=
  if hasToken r tok then eraseKey r tok else r

/-- `queue.put(item)` on the queue registered for `tok`:
appends to that queue, touches nothing else. -/
def enqueue : Registry → String → Option Frame → Registry
  | [], _, _ => []
  | (k, q) :: rest, tok, item =>
    if k = tok then (k, q ++ [item]) :: rest else (k, q) :: enqueue rest tok item

/-- Pairwise-distinct keys: the invariant every state of a Python dict
satisfies by construction. -/
def keysNodup : Registry → Bool
  | [] => true
  | (k, _) :: rest => !hasToken rest k && keysNodup rest

/-- Python truthiness of `sub_id` in `if sub_id and sub_id in ...`:
`None` and the empty string are falsy. -/
def truthy : Option String → Bool
  | none => false
  | some s => s != ""

/-- The router's routing guard, `_receiver` lines 2176-2178 (same shape
at 2181-2183 and 2186-2188): `if sub_id and sub_id in
self._subscriptions: await self._subscriptions[sub_id].put(item)`;
otherwise the frame is dropped. -/
def routeTo (r : Registry) (subId : Option String) (item : Option Frame) : Registry :=
  match subId with
  | none => r
  | some s => if s != "" && hasToken r s then enqueue r s item else r

/-- Client state shared between `_receiver` and the facades: the
registry and the `connection_ack` event flag. -/
structure WsState where
  subscriptions : Registry
  connectionAckEvent : Bool
deriving DecidableEq

/-- One iteration of the `_receiver` loop body (lines 2166-2194) on one
inbound websocket message.  `json.JSONDecodeError` is caught and
ignored; `msg_type = data.get("type", "unknown")`; `connection_ack`
sets the event; `next` and `error` frames are routed whole; `complete`
routes the `none` sentinel; any other type is ignored.  The function is
total: no input makes the loop body raise. -/
def receiverStep (st : WsState) (raw : RawFrame) : WsState :=
  match raw with
  | .malformed _ => st
  | .parsed data =>
    let msgType := data.type.getD "unknown"
    if msgType = "connection_ack" then
      { st with connectionAckEvent := true }
    else if msgType = "next" then
      { st with subscriptions := routeTo st.subscriptions data.id (some data) }
    else if msgType = "error" then
      { st with subscriptions := routeTo st.subscriptions data.id (some data) }
    else if msgType = "complete" then
      { st with subscriptions := routeTo st.subscriptions data.id none }
    else st

/-- The `_receiver` loop over a finite inbound message sequence. -/
def receiverRun (st : WsState) (frames : List RawFrame) : WsState :=
  frames.foldl receiverStep st

/-- Outcome of one run of the `_subscribe` generator body. -/
inductive SubOutcome where
  /-- The generator exited (sentinel `break`, consumer cancellation, or
  an exception) and the `finally` cleanup ran; carries the messages
  yielded and the registry after cleanup. -/
  | finished (yielded : List Frame) (r : Registry)
  /-- The consumer is suspended on `queue.get()` with the queue
  exhausted and no sentinel seen: the generator has not exited and the
  cleanup has not run. -/
  | blocked (yielded : List Frame) (r : Registry)
deriving DecidableEq

/-- Decrement a consumer budget. -/
def decLimit : Option Nat → Option Nat
  | none => none
  | some n => some (n - 1)

/-- The `_subscribe` read loop (lines 2229-2237) run against queue
contents `q`: repeatedly `queue.get()`; a `none` sentinel breaks the
loop; any other message is yielded.  `limit = some k` models a consumer
that cancels iteration after consuming `k` messages (closing the
generator, so the `finally` runs); `limit = none` models a consumer
that drains until the sentinel.  On every generator exit the `finally`
block unregisters the token; if the queue runs dry with no sentinel and
the consumer still iterating, the generator stays suspended
(`blocked`) and the cleanup has not run. -/
def subscribeRun (r : Registry) (tok : String) : Queue → Option Nat → SubOutcome
  | _, some 0 => .finished [] (unregisterTok r tok)
  | [], _ => .blocked [] r
  | none :: _, _ => .finished [] (unregisterTok r tok)
  | some m :: rest, limit =>
    match subscribeRun r tok rest (decLimit limit) with
    | .finished ys r' => .finished (m :: ys) r'
    | .blocked ys r' => .blocked (m :: ys) r'

-- ==================== helper lemmas: registry ====================

theorem lookupQ_enqueue_ne (r : Registry) (a b : String) (item : Option Frame)
    (h : a ≠ b) : lookupQ (enqueue r a item) b = lookupQ r b := by
  induction r with
  | nil => rfl
  | cons hd tl ih =>
    obtain ⟨k, q⟩ := hd
    by_cases hk : k = a
    · subst hk
      simp [enqueue, lookupQ, h]
    · simp [enqueue, lookupQ, hk]
      by_cases hkb : k = b
      · simp [hkb]
      · simp [hkb, ih]

theorem lookupQ_enqueue_self (r : Registry) (a : String) (item : Option Frame) :
    lookupQ (enqueue r a item) a = (lookupQ r a).map (· ++ [item]) := by
  induction r with
  | nil => rfl
  | cons hd tl ih =>
    obtain ⟨k, q⟩ := hd
    by_cases hk : k = a
    · subst hk
      simp [enqueue, lookupQ]
    · simp [enqueue, lookupQ, hk, ih]

theorem hasToken_enqueue (r : Registry) (a b : String) (item : Option Frame) :
    hasToken (enqueue r a item) b = hasToken r b := by
  by_cases h : a = b
  · subst h
    simp [hasToken, lookupQ_enqueue_self]
  · simp [hasToken, lookupQ_enqueue_ne r a b item h]

theorem queueOf_enqueue_self (r : Registry) (a : String) (item : Option Frame)
    (h : hasToken r a = true) : queueOf (enqueue r a item) a = queueOf r a ++ [item] := by
  simp only [hasToken, Option.isSome_iff_exists] at h
  obtain ⟨q, hq⟩ := h
  simp [queueOf, lookupQ_enqueue_self, hq]

theorem queueOf_enqueue_ne (r : Registry) (a b : String) (item : Option Frame)
    (h : a ≠ b) : queueOf (enqueue r a item) b = queueOf r b := by
  simp [queueOf, lookupQ_enqueue_ne r a b item h]

theorem hasToken_eraseKey_self (r : Registry) (tok : String)
    (hwf : keysNodup r = true) : hasToken (eraseKey r tok) tok = false := by
  induction r with
  | nil => rfl
  | cons hd tl ih =>
    obtain ⟨k, q⟩ := hd
    simp only [keysNodup, Bool.and_eq_true, Bool.not_eq_true'] at hwf
    by_cases hk : k = tok
    · subst hk
      simpa [eraseKey] using hwf.1
    · simp [eraseKey, hk, hasToken, lookupQ]
      have := ih hwf.2
      simpa [hasToken] using this

theorem hasToken_unregisterTok_self (r : Registry) (tok : String)
    (hwf : keysNodup r = true) : hasToken (unregisterTok r tok) tok = false := by
  unfold unregisterTok
  by_cases h : hasToken r tok
  · simp [h, hasToken_eraseKey_self r tok hwf]
  · simp only [h]
    simpa using h

-- ==================== facade lemmas ====================

theorem subscribeRun_finished_unregisters (r : Registry) (tok : String) :
    ∀ (q : Queue) (lim : Option Nat) (ys : List Frame) (r' : Registry),
      subscribeRun r tok q lim = .finished ys r' → r' = unregisterTok r tok := by
  intro q
  induction q with
  | nil =>
    intro lim ys r' h
    match lim with
    | none => simp [subscribeRun] at h
    | some 0 => simp [subscribeRun] at h; exact h.2.symm
    | some (n + 1) => simp [subscribeRun] at h
  | cons hd tl ih =>
    intro lim ys r' h
    match lim, hd with
    | some 0, _ =>
      simp [subscribeRun] at h
      exact h.2.symm
    | none, none =>
      simp [subscribeRun] at h
      exact h.2.symm
    | some (n + 1), none =>
      simp [subscribeRun] at h
      exact h.2.symm
    | none, some m =>
      have h' : (match subscribeRun r tok tl none with
          | .finished ys r' => SubOutcome.finished (m :: ys) r'
          | .blocked ys r' => SubOutcome.blocked (m :: ys) r') = .finished ys r' := h
      cases hrec : subscribeRun r tok tl none with
      | finished ys0 r0 =>
        rw [hrec] at h'
        cases h'
        exact ih none ys0 r' hrec
      | blocked ys0 r0 =>
        rw [hrec] at h'
        cases h'
    | some (n + 1), some m =>
      have h' : (match subscribeRun r tok tl (some n) with
          | .finished ys r' => SubOutcome.finished (m :: ys) r'
          | .blocked ys r' => SubOutcome.blocked (m :: ys) r') = .finished ys r' := h
      cases hrec : subscribeRun r tok tl (some n) with
      | finished ys0 r0 =>
        rw [hrec] at h'
        cases h'
        exact ih (some n) ys0 r' hrec
      | blocked ys0 r0 =>
        rw [hrec] at h'
        cases h'

theorem subscribeRun_cancel (r : Registry) (tok : String) :
    ∀ (msgs : List Frame) (tail : Queue) (k : Nat), k ≤ msgs.length →
      subscribeRun r tok (msgs.map Option.some ++ tail) (some k) =
        .finished (msgs.take k) (unregisterTok r tok) := by
  intro msgs
  induction msgs with
  | nil =>
    intro tail k hk
    have hk0 : k = 0 := Nat.le_zero.mp hk
    subst hk0
    simp [subscribeRun]
  | cons m rest ih =>
    intro tail k hk
    match k with
    | 0 => rfl
    | k + 1 =>
      have hk' : k ≤ rest.length := Nat.succ_le_succ_iff.mp (by simpa using hk)
      have hrec := ih tail k hk'
      show (match subscribeRun r tok (rest.map Option.some ++ tail) (some (k + 1 - 1)) with
          | .finished ys r' => SubOutcome.finished (m :: ys) r'
          | .blocked ys r' => SubOutcome.blocked (m :: ys) r') =
        .finished ((m :: rest).take (k + 1)) (unregisterTok r tok)
      rw [Nat.add_sub_cancel, hrec]
      rfl

theorem subscribeRun_complete (r : Registry) (tok : String)
    (msgs : List Frame) (tail : Queue) :
    subscribeRun r tok (msgs.map Option.some ++ (none :: tail)) none =
      .finished msgs (unregisterTok r tok) := by
  induction msgs with
  | nil => rfl
  | cons m rest ih =>
    simp only [List.map_cons, List.cons_append, subscribeRun, decLimit,
      List.append_eq, ih]

-- ==================== helper lemmas: router ====================

theorem routeTo_registered (r : Registry) (s : String) (item : Option Frame)
    (hs : s ≠ "") (hReg : hasToken r s = true) :
    routeTo r (some s) item = enqueue r s item := by
  have hbne : (s != "") = true := by simpa using hs
  simp [routeTo, hbne, hReg]

theorem routeTo_unregistered (r : Registry) (subId : Option String) (item : Option Frame)
    (h : ∀ s, subId = some s → hasToken r s = false) :
    routeTo r subId item = r := by
  match subId with
  | none => rfl
  | some s => simp [routeTo, h s rfl]

theorem hasToken_routeTo (r : Registry) (subId : Option String) (item : Option Frame)
    (b : String) : hasToken (routeTo r subId item) b = hasToken r b := by
  match subId with
  | none => rfl
  | some s =>
    by_cases h : ((s != "") && hasToken r s) = true
    · simp [routeTo, h, hasToken_enqueue]
    · simp [routeTo, h]

theorem queueOf_routeTo_ne (r : Registry) (a b : String) (item : Option Frame)
    (h : a ≠ b) : queueOf (routeTo r (some a) item) b = queueOf r b := by
  by_cases hc : ((a != "") && hasToken r a) = true
  · simp [routeTo, hc, queueOf_enqueue_ne r a b item h]
  · simp [routeTo, hc]

theorem receiverStep_malformed (st : WsState) (text : String) :
    receiverStep st (.malformed text) = st := rfl

theorem receiverStep_next (st : WsState) (f : Frame) (h : f.type = some "next") :
    receiverStep st (.parsed f) =
      { st with subscriptions := routeTo st.subscriptions f.id (some f) } := by
  simp [receiverStep, h]

theorem receiverStep_error (st : WsState) (f : Frame) (h : f.type = some "error") :
    receiverStep st (.parsed f) =
      { st with subscriptions := routeTo st.subscriptions f.id (some f) } := by
  simp [receiverStep, h]

theorem receiverStep_complete (st : WsState) (f : Frame) (h : f.type = some "complete") :
    receiverStep st (.parsed f) =
      { st with subscriptions := routeTo st.subscriptions f.id none } := by
  simp [receiverStep, h]

/-- Routing a batch of `next` frames whose ids are all `A` or `B`
appends to `B`'s queue exactly the frames carrying id `B`, in arrival
order. -/
theorem receiverRun_partition (A B : String) (hAB : A ≠ B) (hB : B ≠ "") :
    ∀ (frames : List Frame) (st : WsState),
      hasToken st.subscriptions B = true →
      (∀ f ∈ frames, f.type = some "next" ∧ (f.id = some A ∨ f.id = some B)) →
      queueOf (receiverRun st (frames.map RawFrame.parsed)).subscriptions B =
        queueOf st.subscriptions B ++
          (frames.filter (fun f => f.id == some B)).map Option.some := by
  intro frames
  induction frames with
  | nil =>
    intro st hReg hF
    simp [receiverRun]
  | cons f fs ih =>
    intro st hReg hF
    obtain ⟨hType, hId⟩ := hF f (List.mem_cons_self f fs)
    have hFs : ∀ g ∈ fs, g.type = some "next" ∧ (g.id = some A ∨ g.id = some B) :=
      fun g hg => hF g (List.mem_cons_of_mem f hg)
    have hrun : receiverRun st ((f :: fs).map RawFrame.parsed) =
        receiverRun (receiverStep st (.parsed f)) (fs.map RawFrame.parsed) := rfl
    rw [hrun, receiverStep_next st f hType]
    have hReg' : hasToken (routeTo st.subscriptions f.id (some f)) B = true := by
      rw [hasToken_routeTo]; exact hReg
    have hrec := ih { st with subscriptions := routeTo st.subscriptions f.id (some f) }
      hReg' hFs
    rcases hId with hIdA | hIdB
    · have hfilter : (f.id == some B) = false := by
        rw [hIdA]
        simp [hAB]
      rw [List.filter_cons, hfilter]
      simp only [Bool.false_eq_true, if_false]
      rw [hrec]
      have : queueOf (routeTo st.subscriptions f.id (some f)) B =
          queueOf st.subscriptions B := by
        rw [hIdA]
        exact queueOf_routeTo_ne st.subscriptions A B (some f) hAB
      rw [this]
    · have hfilter : (f.id == some B) = true := by
        rw [hIdB]
        simp
      rw [List.filter_cons, hfilter]
      simp only [if_true]
      rw [hrec]
      have : queueOf (routeTo st.subscriptions f.id (some f)) B =
          queueOf st.subscriptions B ++ [some f] := by
        rw [hIdB, routeTo_registered st.subscriptions B (some f) hB hReg]
        exact queueOf_enqueue_self st.subscriptions B (some f) hReg
      rw [this]
      simp

-- ==================== connect and the send path ====================

/-- An open websocket connection; `sent` is the transcript of frames
written with `ws.send`, in order. -/
structure Connection where
  sent : List Frame
deriving DecidableEq

/-- The candidate-URL loop of `connect` (lines 2089-2120) on a fresh
client (`self.ws is None`): for each url in order, one attempt to open
(`websockets.connect`; the inner modern/legacy keyword fallback is a
deterministic signature-compatibility dispatch inside a single logical
attempt, abstracted by `attempt`).  The first success breaks the loop;
a failure records `last_exc` and continues.  If the loop ends with no
connection, `raise last_exc or RuntimeError(...)` — `.error (some e)`
propagates the last observed exception, `.error none` is the
`RuntimeError` fallback (reachable only with an empty candidate list).
The first component is the trace of urls actually attempted, in
order. -/
def connectLoop {E C : Type} (attempt : String → Except E C) :
    List String → Option E → List String × Except (Option E) C
  | [], lastExc => ([], .error lastExc)
  | url :: rest, _ =>
    match attempt url with
    | .ok c => ([url], .ok c)
    | .error e =>
      let res := connectLoop attempt rest (some e)
      (url :: res.1, res.2)

/-- The candidate loop started with `last_exc = None`. -/
def connectRun {E C : Type} (attempt : String → Except E C) (urls : List String) :
    List String × Except (Option E) C :=
  connectLoop attempt urls none

theorem connectLoop_trace_prefix {E C : Type} (attempt : String → Except E C) :
    ∀ (urls : List String) (lastExc : Option E),
      ∃ suffix, urls = (connectLoop attempt urls lastExc).1 ++ suffix := by
  intro urls
  induction urls with
  | nil => intro lastExc; exact ⟨[], rfl⟩
  | cons url rest ih =>
    intro lastExc
    cases h : attempt url with
    | ok c => exact ⟨rest, by simp [connectLoop, h]⟩
    | error e =>
      obtain ⟨suffix, hs⟩ := ih (some e)
      exact ⟨suffix, by simp [connectLoop, h]; exact hs⟩

theorem connectLoop_first_success {E C : Type} (attempt : String → Except E C)
    (u : String) (c : C) (hu : attempt u = .ok c) :
    ∀ (pre : List String) (post : List String) (lastExc : Option E),
      (∀ v ∈ pre, ∃ e, attempt v = .error e) →
      connectLoop attempt (pre ++ u :: post) lastExc = (pre ++ [u], .ok c) := by
  intro pre
  induction pre with
  | nil =>
    intro post lastExc _
    simp [connectLoop, hu]
  | cons v rest ih =>
    intro post lastExc hfail
    obtain ⟨e, he⟩ := hfail v (List.mem_cons_self v rest)
    have hrest : ∀ w ∈ rest, ∃ e, attempt w = .error e :=
      fun w hw => hfail w (List.mem_cons_of_mem v hw)
    simp [connectLoop, he, ih post (some e) hrest]

theorem connectLoop_all_fail {E C : Type} (attempt : String → Except E C) :
    ∀ (urls : List String) (lastExc : Option E),
      (∀ v ∈ urls, ∃ e, attempt v = .error e) →
      (connectLoop attempt urls lastExc).1 = urls ∧
      ∀ (h : urls ≠ []) (e : E), attempt (urls.getLast h) = .error e →
        (connectLoop attempt urls lastExc).2 = .error (some e) := by
  intro urls
  induction urls with
  | nil =>
    intro lastExc _
    exact ⟨rfl, fun h => absurd rfl h⟩
  | cons url rest ih =>
    intro lastExc hfail
    obtain ⟨e0, he0⟩ := hfail url (List.mem_cons_self url rest)
    have hrest : ∀ w ∈ rest, ∃ e, attempt w = .error e :=
      fun w hw => hfail w (List.mem_cons_of_mem url hw)
    obtain ⟨ihtr, ihlast⟩ := ih (some e0) hrest
    constructor
    · simp [connectLoop, he0, ihtr]
    · intro h e he
      match rest with
      | [] =>
        have : url = (url :: ([] : List String)).getLast h := rfl
        rw [← this] at he
        rw [he0] at he
        cases he
        simp [connectLoop, he0]
      | w :: ws =>
        have hne : (w :: ws) ≠ ([] : List String) := by simp
        have hlast : (url :: w :: ws).getLast h = (w :: ws).getLast hne :=
          List.getLast_cons hne
        rw [hlast] at he
        have := ihlast hne e he
        simpa [connectLoop, he0] using this

/-- The `connection_init` frame sent right after the socket opens
(lines 2122-2132); `payload` abstracts the header-like payload dict
(credential, version, locale, profile, device id). -/
def initFrame (payload : String) : Frame :=
  { type := some "connection_init", id := none, payload := payload }

/-- `connect` end to end on a fresh client (lines 2089-2140): open via
the candidate loop, send `connection_init`, start the receiver, then
`await asyncio.wait_for(self._connection_ack_event.wait(), timeout=10)`
with `except asyncio.TimeoutError: pass`.  `ackWithin10` abstracts
whether a `connection_ack` frame is processed by the receiver within
the 10-unit wait; it becomes the acknowledgement flag of the returned
state.  The timeout branch neither raises nor closes the socket. -/
def connectFull {E : Type} (attempt : String → Except E Connection) (urls : List String)
    (payload : String) (ackWithin10 : Bool) : Except (Option E) (Connection × Bool) :=
  match (connectRun attempt urls).2 with
  | .error e => .error e
  | .ok c => .ok ({ sent := c.sent ++ [initFrame payload] }, ackWithin10)

/-- `_send_message` (lines 2158-2162): `if not self.ws: raise
Exception("WebSocket not connected")`; otherwise `json.dumps` and
`ws.send`, modelled as appending the frame to the transcript. -/
def sendMessage (ws : Option Connection) (msg : Frame) : Except String Connection :=
  match ws with
  | none => .error "WebSocket not connected"
  | some c => .ok { sent := c.sent ++ [msg] }

/-- The keep-alive frame `{"type": "ping", "payload": {}}` of `ping`
(lines 2445-2447); the payload is the empty JSON object. -/
def pingFrame : Frame :=
  { type := some "ping", id := none, payload := "\x7b\x7d" }

/-- `ping` (lines 2445-2447): delegates to `_send_message`. -/
def ping (ws : Option Connection) : Except String Connection :=
  sendMessage ws pingFrame

/-- The `subscribe` frame built by `_subscribe` (lines 2216-2224). -/
def subscribeFrame (subId : String) (payload : String) : Frame :=
  { type := some "subscribe", id := some subId, payload := payload }

/-- First consumption of the `_subscribe` generator up to the send
(lines 2211-2227): register the fresh token with a new empty queue,
then `_send_message` the subscribe frame inside the `try`; if the send
raises (no connection open), the `finally` unregisters the token and
the exception propagates to the consumer. -/
def subscribeStart (ws : Option Connection) (r : Registry) (subId : String)
    (payload : String) : Except (String × Registry) (Connection × Registry) :=
  let r' := setKey r subId []
  match sendMessage ws (subscribeFrame subId payload) with
  | .error e => .error (e, unregisterTok r' subId)
  | .ok c => .ok (c, r')

-- ==================== registry bookkeeping (register/unregister) ====================

/-- A registry operation: registration of a token with a fresh empty
queue (`self._subscriptions[sub_id] = queue`, line 2213) or the guarded
delete of the facade cleanup (lines 2236-2237). -/
inductive RegOp where
  | register (tok : String)
  | unregister (tok : String)
deriving DecidableEq

def applyOp (r : Registry) : RegOp → Registry
  | .register tok => setKey r tok []
  | .unregister tok => unregisterTok r tok

def applyOps (r : Registry) (ops : List RegOp) : Registry :=
  ops.foldl applyOp r

/-- Number of `register` calls in a batch. -/
def regCalls : List RegOp → Nat
  | [] => 0
  | .register _ :: rest => regCalls rest + 1
  | .unregister _ :: rest => regCalls rest

/-- Number of `unregister` calls whose token was registered at the time
of the call. -/
def effectiveUnregs : Registry → List RegOp → Nat
  | _, [] => 0
  | r, op :: rest =>
    (match op with
     | .unregister tok => if hasToken r tok then 1 else 0
     | .register _ => 0) + effectiveUnregs (applyOp r op) rest

/-- Every `register` in the batch uses a token not registered at the
time of the call.  The code draws tokens from `str(uuid.uuid4())`, and
the spec's invariant states a token is never reused while still
registered. -/
def freshRun : Registry → List RegOp → Bool
  | _, [] => true
  | r, op :: rest =>
    (match op with
     | .register tok => !hasToken r tok
     | .unregister _ => true) && freshRun (applyOp r op) rest

theorem setKey_length_absent (tok : String) (q : Queue) :
    ∀ (r : Registry), hasToken r tok = false → (setKey r tok q).length = r.length + 1 := by
  intro r
  induction r with
  | nil => intro _; rfl
  | cons hd tl ih =>
    obtain ⟨k, v⟩ := hd
    intro h
    simp only [hasToken, lookupQ] at h
    by_cases hk : k = tok
    · rw [hk] at h
      simp at h
    · simp only [setKey, hk, if_false, List.length_cons]
      rw [ih (by simpa [hasToken, hk] using h)]

theorem eraseKey_length_present (tok : String) :
    ∀ (r : Registry), hasToken r tok = true → (eraseKey r tok).length + 1 = r.length := by
  intro r
  induction r with
  | nil => intro h; simp [hasToken, lookupQ] at h
  | cons hd tl ih =>
    obtain ⟨k, v⟩ := hd
    intro h
    by_cases hk : k = tok
    · simp [eraseKey, hk]
    · simp only [eraseKey, hk, if_false, List.length_cons]
      rw [ih (by simpa [hasToken, lookupQ, hk] using h)]

theorem unregisterTok_absent (r : Registry) (tok : String)
    (h : hasToken r tok = false) : unregisterTok r tok = r := by
  simp [unregisterTok, h]

theorem applyOps_length_invariant :
    ∀ (ops : List RegOp) (r : Registry), freshRun r ops = true →
      (applyOps r ops).length + effectiveUnregs r ops = r.length + regCalls ops := by
  intro ops
  induction ops with
  | nil => intro r _; rfl
  | cons op rest ih =>
    intro r hfresh
    simp only [freshRun, Bool.and_eq_true] at hfresh
    have hrec := ih (applyOp r op) hfresh.2
    match op with
    | .register tok =>
      have htok : hasToken r tok = false := by
        have := hfresh.1
        simpa using this
      have hlen : (applyOp r (.register tok)).length = r.length + 1 :=
        setKey_length_absent tok [] r htok
      show (applyOps (applyOp r (.register tok)) rest).length +
          (0 + effectiveUnregs (applyOp r (.register tok)) rest) =
        r.length + (regCalls rest + 1)
      omega
    | .unregister tok =>
      by_cases htok : hasToken r tok = true
      · have hlen : (applyOp r (.unregister tok)).length + 1 = r.length := by
          simp only [applyOp, unregisterTok, htok, if_true]
          exact eraseKey_length_present tok r htok
        show (applyOps (applyOp r (.unregister tok)) rest).length +
            ((if hasToken r tok then 1 else 0) + effectiveUnregs (applyOp r (.unregister tok)) rest) =
          r.length + regCalls rest
        rw [if_pos htok]
        omega
      · have htok' : hasToken r tok = false := by simpa using htok
        have hlen : applyOp r (.unregister tok) = r := by
          simp only [applyOp]
          exact unregisterTok_absent r tok htok'
        show (applyOps (applyOp r (.unregister tok)) rest).length +
            ((if hasToken r tok then 1 else 0) + effectiveUnregs (applyOp r (.unregister tok)) rest) =
          r.length + regCalls rest
        rw [if_neg htok]
        rw [hlen] at hrec ⊢
        omega

-- ==================== claim theorems ====================

/-- C1: for every finite sequence of messages enqueued to a
subscription's queue followed by the completion sentinel (`None`), the
facade's read loop yields exactly those messages, in enqueue order, and
then terminates cleanly (`finished`, with the `finally` cleanup run)
without yielding the sentinel itself — the yielded list has type
`List Frame`, so the sentinel is not even representable in it — and
without raising (`subscribeRun` is total and the sentinel case is the
`break`, not an exception). -/
theorem C1_facade_yields_enqueued_then_terminates (r : Registry) (tok : String)
    (msgs : List Frame) :
    subscribeRun r tok (msgs.map Option.some ++ [none]) none =
      .finished msgs (unregisterTok r tok) :=
  subscribeRun_complete r tok msgs []

/-- C2: for distinct registered tokens `A` and `B` and any interleaved
batch of inbound `next` frames carrying either id, the router appends
to `B`'s queue exactly the frames whose id is `B`, in arrival order;
consequently a frame whose id is `A` never appears in `B`'s queue
unless it was already there before the batch. -/
theorem C2_router_partitions_by_id (st : WsState) (A B : String) (frames : List Frame)
    (hAB : A ≠ B) (hB : B ≠ "")
    (hReg : hasToken st.subscriptions B = true)
    (hFrames : ∀ f ∈ frames, f.type = some "next" ∧ (f.id = some A ∨ f.id = some B)) :
    queueOf (receiverRun st (frames.map RawFrame.parsed)).subscriptions B =
      queueOf st.subscriptions B ++
        (frames.filter (fun f => f.id == some B)).map Option.some
    ∧ ∀ g : Frame, g.id = some A →
        Option.some g ∈ queueOf (receiverRun st (frames.map RawFrame.parsed)).subscriptions B →
        Option.some g ∈ queueOf st.subscriptions B := by
  have hmain := receiverRun_partition A B hAB hB frames st hReg hFrames
  refine ⟨hmain, ?_⟩
  intro g hg hmem
  rw [hmain] at hmem
  rcases List.mem_append.mp hmem with h | h
  · exact h
  · exfalso
    obtain ⟨x, hx, hxg⟩ := List.mem_map.mp h
    injection hxg with hxg'
    subst hxg'
    have hxB : (x.id == some B) = true := (List.mem_filter.mp hx).2
    rw [hg] at hxB
    have : A = B := by simpa using hxB
    exact hAB this

/-- C2 witness: two registered tokens `"a"` and `"b"`, one `next`
frame for each; `"b"`'s queue receives exactly its own frame. -/
theorem C2_witness :
    queueOf (receiverRun
        { subscriptions := [("b", []), ("a", [])], connectionAckEvent := false }
        ([{ type := some "next", id := some "a", payload := "p1" },
          { type := some "next", id := some "b", payload := "p2" }].map RawFrame.parsed)).subscriptions "b" =
      queueOf ([("b", []), ("a", [])] : Registry) "b" ++
        (([{ type := some "next", id := some "a", payload := "p1" },
           { type := some "next", id := some "b", payload := "p2" }] : List Frame).filter
          (fun f => f.id == some "b")).map Option.some
    ∧ ∀ g : Frame, g.id = some "a" →
        Option.some g ∈ queueOf (receiverRun
          { subscriptions := [("b", []), ("a", [])], connectionAckEvent := false }
          ([{ type := some "next", id := some "a", payload := "p1" },
            { type := some "next", id := some "b", payload := "p2" }].map RawFrame.parsed)).subscriptions "b" →
        Option.some g ∈ queueOf ([("b", []), ("a", [])] : Registry) "b" :=
  C2_router_partitions_by_id
    { subscriptions := [("b", []), ("a", [])], connectionAckEvent := false }
    "a" "b"
    [{ type := some "next", id := some "a", payload := "p1" },
     { type := some "next", id := some "b", payload := "p2" }]
    (by decide) (by decide) (by decide) (by decide)

/-- C3 counterexample: receipt of an `error` terminal frame does NOT
remove the token from the registry.  With token `"T"` registered and an
empty queue, routing an `error` frame for `"T"` leaves `"T"` registered
(the frame is merely enqueued), and the facade's read loop over the
resulting queue yields the error message and then stays suspended on
the empty queue — the generator has not exited, so the cleanup has not
run and the token is still mapped. -/
theorem C3_counterexample :
    (receiverStep { subscriptions := [("T", [])], connectionAckEvent := true }
        (.parsed { type := some "error", id := some "T", payload := "boom" })).subscriptions =
      [("T", [some { type := some "error", id := some "T", payload := "boom" }])]
    ∧ hasToken (receiverStep { subscriptions := [("T", [])], connectionAckEvent := true }
        (.parsed { type := some "error", id := some "T", payload := "boom" })).subscriptions "T" = true
    ∧ subscribeRun
        [("T", [some { type := some "error", id := some "T", payload := "boom" }])] "T"
        [some { type := some "error", id := some "T", payload := "boom" }] none =
      .blocked [{ type := some "error", id := some "T", payload := "boom" }]
        [("T", [some { type := some "error", id := some "T", payload := "boom" }])] :=
  ⟨rfl, rfl, rfl⟩

/-- C3 (amended): the token is removed from the registry on completion
(sentinel consumed: the read loop breaks and the `finally` cleanup
unregisters) and on every other generator exit, including explicit
consumer cancellation — after any exit the token is absent.  Receipt of
an `error` terminal frame, however, does not itself unregister the
token: the router only enqueues the error message, which the facade
yields to the consumer; the token is removed only when the consumer
thereafter stops iterating. -/
theorem C3_amended_terminal_cleanup (r : Registry) (tok : String)
    (hwf : keysNodup r = true) :
    (∀ (msgs : List Frame) (tail : Queue),
        subscribeRun r tok (msgs.map Option.some ++ (none :: tail)) none =
          .finished msgs (unregisterTok r tok)
        ∧ hasToken (unregisterTok r tok) tok = false)
    ∧ (∀ (q : Queue) (lim : Option Nat) (ys : List Frame) (r' : Registry),
        subscribeRun r tok q lim = .finished ys r' → hasToken r' tok = false)
    ∧ (∀ (st : WsState) (f : Frame), st.subscriptions = r → tok ≠ "" →
        hasToken r tok = true → f.type = some "error" → f.id = some tok →
        queueOf (receiverStep st (.parsed f)).subscriptions tok = queueOf r tok ++ [some f]
        ∧ hasToken (receiverStep st (.parsed f)).subscriptions tok = true) := by
  refine ⟨?_, ?_, ?_⟩
  · intro msgs tail
    exact ⟨subscribeRun_complete r tok msgs tail, hasToken_unregisterTok_self r tok hwf⟩
  · intro q lim ys r' h
    rw [subscribeRun_finished_unregisters r tok q lim ys r' h]
    exact hasToken_unregisterTok_self r tok hwf
  · intro st f hst ht hReg hType hId
    subst hst
    rw [receiverStep_error st f hType]
    constructor
    · show queueOf (routeTo st.subscriptions f.id (some f)) tok =
        queueOf st.subscriptions tok ++ [some f]
      rw [hId, routeTo_registered st.subscriptions tok (some f) ht hReg]
      exact queueOf_enqueue_self st.subscriptions tok (some f) hReg
    · show hasToken (routeTo st.subscriptions f.id (some f)) tok = true
      rw [hasToken_routeTo]
      exact hReg

/-- C3 witness: with `"T"` registered, after the generator consumes the
sentinel and its cleanup runs, the token is absent. -/
theorem C3_witness :
    subscribeRun [("T", [])] "T" ((([] : List Frame)).map Option.some ++ (none :: [])) none =
      .finished [] (unregisterTok [("T", [])] "T")
    ∧ hasToken (unregisterTok [("T", [])] "T") "T" = false :=
  (C3_amended_terminal_cleanup [("T", [])] "T" (by decide)).1 [] []

/-- C4: if the consumer abandons iteration after consuming `k` of the
queued messages (cancellation or any exceptional exit), the generator
exits, the `finally` cleanup runs unconditionally, and the token is
absent from the registry afterwards. -/
theorem C4_abandoned_iteration_cleanup (r : Registry) (tok : String)
    (msgs : List Frame) (tail : Queue) (k : Nat)
    (hwf : keysNodup r = true) (hk : k ≤ msgs.length) :
    subscribeRun r tok (msgs.map Option.some ++ tail) (some k) =
      .finished (msgs.take k) (unregisterTok r tok)
    ∧ hasToken (unregisterTok r tok) tok = false :=
  ⟨subscribeRun_cancel r tok msgs tail k hk, hasToken_unregisterTok_self r tok hwf⟩

/-- C4 witness: token `"T"` with two queued messages; the consumer
cancels after one; the yielded list is the first message and the token
is gone. -/
theorem C4_witness :
    subscribeRun [("T", [])] "T"
        (([{ type := some "next", id := some "T", payload := "p1" },
           { type := some "next", id := some "T", payload := "p2" }] : List Frame).map Option.some
          ++ []) (some 1) =
      .finished (([{ type := some "next", id := some "T", payload := "p1" },
                   { type := some "next", id := some "T", payload := "p2" }] : List Frame).take 1)
        (unregisterTok [("T", [])] "T")
    ∧ hasToken (unregisterTok [("T", [])] "T") "T" = false :=
  C4_abandoned_iteration_cleanup [("T", [])] "T"
    [{ type := some "next", id := some "T", payload := "p1" },
     { type := some "next", id := some "T", payload := "p2" }] [] 1
    (by decide) (by decide)

/-- C5: the candidate loop of `connect` attempts endpoints strictly in
list order (the attempt trace is a prefix of the candidate list), never
attempts a candidate more often than it occurs (so never twice on a
duplicate-free list), stops at the first successful open — attempting
exactly the failed prefix plus the winner — and, when every candidate
fails, exhausts the whole list and propagates the last observed
error. -/
theorem C5_connect_candidate_loop {E C : Type} (attempt : String → Except E C)
    (urls : List String) :
    (∃ suffix, urls = (connectRun attempt urls).1 ++ suffix)
    ∧ (urls.Nodup → (connectRun attempt urls).1.Nodup)
    ∧ (∀ u : String, ((connectRun attempt urls).1).count u ≤ urls.count u)
    ∧ (∀ (pre post : List String) (u : String) (c : C),
        urls = pre ++ u :: post →
        (∀ v ∈ pre, ∃ e, attempt v = .error e) →
        attempt u = .ok c →
        connectRun attempt urls = (pre ++ [u], .ok c))
    ∧ ((∀ v ∈ urls, ∃ e, attempt v = .error e) →
        (connectRun attempt urls).1 = urls ∧
        ∀ (h : urls ≠ []) (e : E), attempt (urls.getLast h) = .error e →
          (connectRun attempt urls).2 = .error (some e)) := by
  obtain ⟨suffix, hs⟩ := connectLoop_trace_prefix attempt urls none
  refine ⟨⟨suffix, hs⟩, ?_, ?_, ?_, ?_⟩
  · intro hnodup
    rw [hs] at hnodup
    exact hnodup.of_append_left
  · intro u
    conv_rhs => rw [hs]
    rw [List.count_append]
    exact Nat.le_add_right _ _
  · intro pre post u c hurls hfail hok
    rw [hurls]
    exact connectLoop_first_success attempt u c hok pre post none hfail
  · intro hfail
    exact connectLoop_all_fail attempt urls none hfail

/-- C5 witness: three candidates where the second succeeds — the loop
attempts the first two in order and returns the second's connection. -/
theorem C5_witness :
    connectRun (fun u => if u = "b" then Except.ok 1 else Except.error u) ["a", "b", "c"] =
      (["a", "b"], Except.ok 1) :=
  (C5_connect_candidate_loop (fun u => if u = "b" then Except.ok 1 else Except.error u)
      ["a", "b", "c"]).2.2.2.1 ["a"] ["c"] "b" 1 rfl
    (by
      intro v hv
      have hv' : v = "a" := by simpa using hv
      subst hv'
      exact ⟨"a", rfl⟩)
    rfl

/-- C6: a malformed (non-JSON) inbound frame between two valid `next`
frames for the same registered token is silently discarded — the step
on it is the identity and the three-frame run equals the two-frame run
(the reader loop neither raises nor stops, being a total fold) — and
the token's queue receives both valid frames in order; from an empty
initial queue the consumer then observes exactly both payloads. -/
theorem C6_malformed_frame_tolerated (st : WsState) (tok : String) (f1 f2 : Frame)
    (junk : String) (ht : tok ≠ "") (hReg : hasToken st.subscriptions tok = true)
    (h1t : f1.type = some "next") (h1i : f1.id = some tok)
    (h2t : f2.type = some "next") (h2i : f2.id = some tok) :
    receiverStep st (.malformed junk) = st
    ∧ receiverRun st [.parsed f1, .malformed junk, .parsed f2] =
        receiverRun st [.parsed f1, .parsed f2]
    ∧ queueOf (receiverRun st [.parsed f1, .malformed junk, .parsed f2]).subscriptions tok =
        queueOf st.subscriptions tok ++ [some f1, some f2]
    ∧ (∀ r0 : Registry, queueOf st.subscriptions tok = [] →
        subscribeRun r0 tok
          (queueOf (receiverRun st [.parsed f1, .malformed junk, .parsed f2]).subscriptions tok
            ++ [none]) none =
          .finished [f1, f2] (unregisterTok r0 tok)) := by
  have hstep1 : receiverStep st (.parsed f1) =
      { st with subscriptions := routeTo st.subscriptions f1.id (some f1) } :=
    receiverStep_next st f1 h1t
  have hr1 : routeTo st.subscriptions f1.id (some f1) = enqueue st.subscriptions tok (some f1) := by
    rw [h1i]
    exact routeTo_registered st.subscriptions tok (some f1) ht hReg
  have hReg1 : hasToken (routeTo st.subscriptions f1.id (some f1)) tok = true := by
    rw [hasToken_routeTo]
    exact hReg
  have hq1 : queueOf (routeTo st.subscriptions f1.id (some f1)) tok =
      queueOf st.subscriptions tok ++ [some f1] := by
    rw [hr1]
    exact queueOf_enqueue_self st.subscriptions tok (some f1) hReg
  have hq : queueOf (receiverRun st [.parsed f1, .malformed junk, .parsed f2]).subscriptions tok =
      queueOf st.subscriptions tok ++ [some f1, some f2] := by
    show queueOf (receiverStep (receiverStep st (.parsed f1)) (.parsed f2)).subscriptions tok =
      queueOf st.subscriptions tok ++ [some f1, some f2]
    rw [hstep1, receiverStep_next _ f2 h2t]
    show queueOf (routeTo (routeTo st.subscriptions f1.id (some f1)) f2.id (some f2)) tok =
      queueOf st.subscriptions tok ++ [some f1, some f2]
    rw [h2i, routeTo_registered _ tok (some f2) ht hReg1,
      queueOf_enqueue_self _ tok (some f2) hReg1, hq1]
    simp
  refine ⟨rfl, rfl, hq, ?_⟩
  intro r0 hempty
  rw [hq, hempty]
  exact subscribeRun_complete r0 tok [f1, f2] []

/-- C6 witness: token `"T"` with an empty queue; a junk frame between
two `next` frames leaves both valid payloads in the queue and the
consumer drains exactly them. -/
theorem C6_witness :
    receiverStep { subscriptions := [("T", [])], connectionAckEvent := true }
        (.malformed "not json") =
      { subscriptions := [("T", [])], connectionAckEvent := true }
    ∧ receiverRun { subscriptions := [("T", [])], connectionAckEvent := true }
        [.parsed { type := some "next", id := some "T", payload := "p1" },
         .malformed "not json",
         .parsed { type := some "next", id := some "T", payload := "p2" }] =
      receiverRun { subscriptions := [("T", [])], connectionAckEvent := true }
        [.parsed { type := some "next", id := some "T", payload := "p1" },
         .parsed { type := some "next", id := some "T", payload := "p2" }]
    ∧ queueOf (receiverRun { subscriptions := [("T", [])], connectionAckEvent := true }
        [.parsed { type := some "next", id := some "T", payload := "p1" },
         .malformed "not json",
         .parsed { type := some "next", id := some "T", payload := "p2" }]).subscriptions "T" =
      queueOf ([("T", [])] : Registry) "T" ++
        [some { type := some "next", id := some "T", payload := "p1" },
         some { type := some "next", id := some "T", payload := "p2" }]
    ∧ (∀ r0 : Registry, queueOf ([("T", [])] : Registry) "T" = [] →
        subscribeRun r0 "T"
          (queueOf (receiverRun { subscriptions := [("T", [])], connectionAckEvent := true }
            [.parsed { type := some "next", id := some "T", payload := "p1" },
             .malformed "not json",
             .parsed { type := some "next", id := some "T", payload := "p2" }]).subscriptions "T"
            ++ [none]) none =
          .finished [{ type := some "next", id := some "T", payload := "p1" },
                     { type := some "next", id := some "T", payload := "p2" }]
            (unregisterTok r0 "T")) :=
  C6_malformed_frame_tolerated { subscriptions := [("T", [])], connectionAckEvent := true }
    "T" { type := some "next", id := some "T", payload := "p1" }
    { type := some "next", id := some "T", payload := "p2" } "not json"
    (by decide) (by decide) (by decide) (by decide) (by decide) (by decide)

/-- C7: routing any `next`, `error`, or `complete` frame whose id is
not a registered token leaves the registry exactly as it was: nothing
is enqueued anywhere, no mapping entry is created, and the step cannot
raise (it is a total function whose drop branch returns the state
unchanged). -/
theorem C7_unregistered_token_dropped (st : WsState) (tok : String) (f : Frame)
    (hid : f.id = some tok) (hT : hasToken st.subscriptions tok = false)
    (hType : f.type = some "next" ∨ f.type = some "error" ∨ f.type = some "complete") :
    (receiverStep st (.parsed f)).subscriptions = st.subscriptions := by
  have hdrop : ∀ item, routeTo st.subscriptions f.id item = st.subscriptions := by
    intro item
    apply routeTo_unregistered
    intro s hs
    rw [hid] at hs
    injection hs with hs'
    subst hs'
    exact hT
  rcases hType with h | h | h
  · rw [receiverStep_next st f h]
    exact hdrop _
  · rw [receiverStep_error st f h]
    exact hdrop _
  · rw [receiverStep_complete st f h]
    exact hdrop _

/-- C7 witness: a `next` frame for the unregistered token `"Z"` leaves
the registry (holding only `"A"`) unchanged. -/
theorem C7_witness :
    (receiverStep { subscriptions := [("A", [])], connectionAckEvent := false }
        (.parsed { type := some "next", id := some "Z", payload := "p" })).subscriptions =
      [("A", [])] :=
  C7_unregistered_token_dropped
    { subscriptions := [("A", [])], connectionAckEvent := false } "Z"
    { type := some "next", id := some "Z", payload := "p" }
    (by decide) (by decide) (Or.inl (by decide))

/-- C8: when the candidate loop opens a connection but no
`connection_ack` arrives within the bounded 10-unit handshake wait,
`connect` neither raises nor closes the connection: the
`asyncio.TimeoutError` is caught and ignored, so `connect` returns
normally (`.ok`), the opened connection (with `connection_init`
already sent on it) is kept, and the acknowledgement flag is unset. -/
theorem C8_handshake_timeout_nonfatal {E : Type} (attempt : String → Except E Connection)
    (urls : List String) (payload : String) (c : Connection)
    (h : (connectRun attempt urls).2 = .ok c) :
    connectFull attempt urls payload false =
      .ok ({ sent := c.sent ++ [initFrame payload] }, false) := by
  unfold connectFull
  rw [h]

/-- C8 witness: a single candidate that opens a fresh connection; with
no ack within the timeout, `connect` returns normally with the flag
unset and the init frame sent. -/
theorem C8_witness :
    connectFull (fun _ => (Except.ok { sent := [] } : Except String Connection))
        ["wss://a"] "init" false =
      .ok ({ sent := [initFrame "init"] }, false) :=
  C8_handshake_timeout_nonfatal
    (fun _ => (Except.ok { sent := [] } : Except String Connection))
    ["wss://a"] "init" { sent := [] } rfl

/-- C9: for every batch of register/unregister operations from the
empty registry whose registrations use fresh tokens (as the code's
`uuid.uuid4()` tokens are), the resulting live-token count equals the
number of register calls minus the number of unregister calls whose
token was registered at the time of the call; moreover unregistering
an absent token is a no-op on the registry (the guarded delete takes
its else-branch, so it neither decrements the count nor raises). -/
theorem C9_registry_count_algebra (ops : List RegOp)
    (hfresh : freshRun [] ops = true) :
    (applyOps [] ops).length = regCalls ops - effectiveUnregs [] ops
    ∧ effectiveUnregs [] ops ≤ regCalls ops
    ∧ ∀ (r : Registry) (tok : String), hasToken r tok = false → unregisterTok r tok = r := by
  have h := applyOps_length_invariant ops [] hfresh
  simp only [List.length_nil, Nat.zero_add] at h
  exact ⟨by omega, by omega, fun r tok htok => unregisterTok_absent r tok htok⟩

/-- C9 witness: register `"a"` and `"b"`, unregister `"a"` twice (the
second is a no-op) and unregister the never-registered `"c"`; the live
count is 2 registrations minus 1 effective unregistration. -/
theorem C9_witness :
    (applyOps []
        [RegOp.register "a", RegOp.register "b", RegOp.unregister "a",
         RegOp.unregister "a", RegOp.unregister "c"]).length =
      regCalls
          [RegOp.register "a", RegOp.register "b", RegOp.unregister "a",
           RegOp.unregister "a", RegOp.unregister "c"] -
        effectiveUnregs []
          [RegOp.register "a", RegOp.register "b", RegOp.unregister "a",
           RegOp.unregister "a", RegOp.unregister "c"]
    ∧ effectiveUnregs []
          [RegOp.register "a", RegOp.register "b", RegOp.unregister "a",
           RegOp.unregister "a", RegOp.unregister "c"] ≤
        regCalls
          [RegOp.register "a", RegOp.register "b", RegOp.unregister "a",
           RegOp.unregister "a", RegOp.unregister "c"]
    ∧ ∀ (r : Registry) (tok : String), hasToken r tok = false → unregisterTok r tok = r :=
  C9_registry_count_algebra
    [RegOp.register "a", RegOp.register "b", RegOp.unregister "a",
     RegOp.unregister "a", RegOp.unregister "c"] (by decide)

/-- C10: with no connection open (`self.ws is None`), `_send_message`
raises `Exception("WebSocket not connected")` rather than silently
doing nothing — it can never return successfully — and so do `ping`
and the first consumption of any facade sequence (whose `finally`
cleanup unregisters the freshly registered token before the exception
propagates to the consumer). -/
theorem C10_send_requires_connection (msg : Frame) (r : Registry)
    (subId payload : String) :
    sendMessage none msg = .error "WebSocket not connected"
    ∧ (∀ c : Connection, sendMessage none msg ≠ .ok c)
    ∧ ping none = .error "WebSocket not connected"
    ∧ subscribeStart none r subId payload =
        .error ("WebSocket not connected", unregisterTok (setKey r subId []) subId) :=
  ⟨rfl, fun _ h => Except.noConfusion h, rfl, rfl⟩
